import Mathlib

/-!
Verification of the GitHub-webhook ingestion service (`src/app.py`).

The development shallowly embeds the Python source:

* JSON payloads become the inductive `JValue` (objects are the mutual
  list-like `JObj`, arrays `JArr`).
* Python's `dict.get(key, default)` becomes `jget`; calling `.get` on a
  non-dict value raises `AttributeError`, which the fallible embeddings
  model with `Except String`.
* Python's `str.replace(pat, rep)` (which replaces EVERY occurrence of
  `pat`, left to right, non-overlapping) becomes `pyReplace`.
* `datetime.fromisoformat` is modelled by `fromisoformat`, a parser for
  CPython's documented grammar
  `YYYY-MM-DD[*HH[:MM[:SS[.f{1,6}]]]][(+|-)HH:MM[:SS[.f{1,6}]]]`, where
  `*` matches any single character (the `T` separator may be replaced
  by any character), with calendar validation (month/day ranges, leap
  years, hour/minute/second and offset bounds, year at least 1).
* `strftime('%d %B %Y - %I:%M %p UTC')` becomes `pyStrftime`.
* The three normalizers, the `/webhook` dispatch and the `/api/events`
  read path become `process_push_event`, `process_pull_request_event`,
  `process_merge_event`, `webhook` and `get_events`.  MongoDB storage is
  modelled as a list of `StoredEvent` in insertion order; `created_at`
  (`datetime.utcnow()`) is an abstract `Nat` supplied by the caller.
-/

mutual
/-- A JSON value as delivered by `request.json`.  Numbers are modelled as
integers (no claim depends on floats). -/
inductive JValue where
  | null
  | jbool (b : Bool)
  | jnum (n : Int)
  | jstr (s : String)
  | obj (fields : JObj)
  | arr (elems : JArr)
deriving DecidableEq
inductive JObj where
  | nil
  | cons (key : String) (value : JValue) (rest : JObj)
deriving DecidableEq
inductive JArr where
  | nil
  | cons (value : JValue) (rest : JArr)
deriving DecidableEq
end

/-- First binding of `key` in a JSON object (Python dict keys are unique). -/
def JObj.lookup : JObj → String → Option JValue
  | .nil, _ => none
  | .cons k v rest, key => if k = key then some v else JObj.lookup rest key

/-- Python `fields.get(key, dflt)` on a dict: the default applies only when
the key is missing (a present key with value `null`/`False`/… is returned
as is). -/
def jget (fields : JObj) (key : String) (dflt : JValue) : JValue :=
  (fields.lookup key).getD dflt

/-- Python truthiness (`bool(v)`): `None`, `False`, `0`, `""` and empty
containers are falsy, everything else truthy. -/
def pyTruthy : JValue → Bool
  | .null => false
  | .jbool b => b
  | .jnum n => n ≠ 0
  | .jstr s => s ≠ ""
  | .obj .nil => false
  | .obj (.cons _ _ _) => true
  | .arr .nil => false
  | .arr (.cons _ _) => true

mutual
/-- Python `str(v)` as used by the f-string templates.  Strings render
verbatim, `None`/`True`/`False` and integers as in Python; container
rendering is a simplified repr (its exact shape is irrelevant to every
claim: the templates only need `pyStr` to be a function of the value). -/
def pyStr : JValue → String
  | .null => "None"
  | .jbool true => "True"
  | .jbool false => "False"
  | .jnum n => toString n
  | .jstr s => s
  | .obj fields => "\x7b" ++ pyStrObj fields ++ "\x7d"
  | .arr elems => "[" ++ pyStrArr elems ++ "]"
def pyStrObj : JObj → String
  | .nil => ""
  | .cons k v .nil => "\x27" ++ k ++ "\x27: " ++ pyStr v
  | .cons k v (.cons k2 v2 rest) =>
      "\x27" ++ k ++ "\x27: " ++ pyStr v ++ ", " ++ pyStrObj (.cons k2 v2 rest)
def pyStrArr : JArr → String
  | .nil => ""
  | .cons v .nil => pyStr v
  | .cons v (.cons v2 rest) => pyStr v ++ ", " ++ pyStrArr (.cons v2 rest)
end

/-- `listIsPre pat l` : `pat` is an initial segment of `l`. -/
def listIsPre : List Char → List Char → Bool
  | [], _ => true
  | _ :: _, [] => false
  | p :: ps, c :: cs => p = c && listIsPre ps cs

/-- Worker for `pyReplaceL`.  The counter `skip` is the number of pattern
characters still to be skipped after a match was emitted; recursion is
structural on the subject list. -/
def pyReplaceGo (pat rep : List Char) : Nat → List Char → List Char
  | _, [] => []
  | n + 1, _ :: cs => pyReplaceGo pat rep n cs
  | 0, c :: cs =>
      if listIsPre pat (c :: cs) ∧ pat ≠ [] then
        rep ++ pyReplaceGo pat rep (pat.length - 1) cs
      else
        c :: pyReplaceGo pat rep 0 cs

/-- Python `str.replace` on character lists: every occurrence of `pat`
(non-empty here; the source only replaces `"Z"` and `"refs/heads/"`) is
replaced by `rep`, scanning left to right without overlap. -/
def pyReplaceL (pat rep l : List Char) : List Char :=
  pyReplaceGo pat rep 0 l

/-- Python `s.replace(pat, rep)`. -/
def pyReplace (s pat rep : String) : String :=
  ⟨pyReplaceL pat.toList rep.toList s.toList⟩

example : pyReplace "refs/heads/main" "refs/heads/" "" = "main" := by decide
example : pyReplace "abZcZ" "Z" "+00:00" = "ab+00:00c+00:00" := by decide

/-- Parsed result of `datetime.fromisoformat`: the wall-clock fields and
the UTC offset in seconds (`none` for a naive datetime).  `strftime` with
the source's format string reads only the wall-clock fields — the offset
is never applied, matching Python, where formatting does not convert
between time zones. -/
structure PyDateTime where
  year : Nat
  month : Nat
  day : Nat
  hour : Nat
  minute : Nat
  second : Nat
  offSeconds : Option Int
deriving DecidableEq

/-- Numeric value of an ASCII digit. -/
def digitVal (c : Char) : Option Nat :=
  if '0' ≤ c ∧ c ≤ '9' then some (c.toNat - '0'.toNat) else none

/-- Two-digit field. -/
def digit2 : List Char → Option (Nat × List Char)
  | a :: b :: rest =>
      match digitVal a, digitVal b with
      | some x, some y => some (10 * x + y, rest)
      | _, _ => none
  | _ => none

/-- Four-digit field. -/
def digit4 : List Char → Option (Nat × List Char)
  | a :: b :: c :: d :: rest =>
      match digitVal a, digitVal b, digitVal c, digitVal d with
      | some w, some x, some y, some z =>
          some (1000 * w + 100 * x + 10 * y + z, rest)
      | _, _, _, _ => none
  | _ => none

/-- Leap-year rule of the proleptic Gregorian calendar, as in `datetime`. -/
def isLeap (y : Nat) : Bool :=
  y % 4 = 0 ∧ (y % 100 ≠ 0 ∨ y % 400 = 0)

/-- Days in a month, as validated by the `datetime` constructor. -/
def daysInMonth (y m : Nat) : Nat :=
  if m = 2 then (if isLeap y then 29 else 28)
  else if m = 4 ∨ m = 6 ∨ m = 9 ∨ m = 11 then 30
  else 31

/-- Fractional-seconds tail after the `'.'`: one to six digits, consumed
and discarded (the source's format string never prints them). -/
def parseFracDigits : Nat → List Char → Option (List Char)
  | k, [] => if k = 0 then none else some []
  | k, c :: cs =>
      match digitVal c with
      | some _ => if k + 1 ≤ 6 then parseFracDigits (k + 1) (c :: cs).tail else none
      | none => if k = 0 then none else some (c :: cs)

/-- Optional `[:SS[.ffffff]]` tail of the time part. -/
def parseSecTail : List Char → Option (Nat × List Char)
  | ':' :: rest =>
      match digit2 rest with
      | some (s, rest2) =>
          match rest2 with
          | '.' :: rest3 =>
              match parseFracDigits 0 rest3 with
              | some rest4 => some (s, rest4)
              | none => none
          | _ => some (s, rest2)
      | none => none
  | rest => some (0, rest)

/-- `HH[:MM[:SS[.ffffff]]]` time part. -/
def parseHMS (l : List Char) : Option (Nat × Nat × Nat × List Char) :=
  match digit2 l with
  | some (h, rest) =>
      match rest with
      | ':' :: rest1 =>
          (match digit2 rest1 with
           | some (m, rest2) =>
               match parseSecTail rest2 with
               | some (s, rest3) => some (h, m, s, rest3)
               | none => none
           | none => none)
      | _ => some (h, 0, 0, rest)
  | none => none

/-- Trailing UTC-offset part: either nothing (naive datetime) or
`(+|-)HH:MM[:SS[.ffffff]]` consuming the rest of the string, as
`fromisoformat` documents (the optional seconds tail has the same
grammar as the time's, so it is parsed by `parseSecTail`).  Result is
the signed offset in seconds. -/
def parseOff : List Char → Option (Option Int)
  | [] => some none
  | sgn :: rest =>
      if sgn = '+' ∨ sgn = '-' then
        match digit2 rest with
        | some (hh, rest1) =>
            (match rest1 with
             | ':' :: rest2 =>
                 (match digit2 rest2 with
                  | some (mm, rest3) =>
                      (match parseSecTail rest3 with
                       | some (ss, []) =>
                           if hh ≤ 23 ∧ mm ≤ 59 ∧ ss ≤ 59 then
                             some (some ((if sgn = '+' then 1 else -1) *
                               ((hh * 60 + mm) * 60 + ss : Nat)))
                           else none
                       | _ => none)
                  | none => none)
             | _ => none)
        | none => none
      else none

/-- Final step of `fromisoformat`: parse the offset tail and validate
every field as the `datetime` constructor does. -/
def buildDT (y mo d h mi s : Nat) (r : List Char) : Option PyDateTime :=
  match parseOff r with
  | none => none
  | some off =>
      if 1 ≤ y ∧ 1 ≤ mo ∧ mo ≤ 12 ∧ 1 ≤ d ∧ d ≤ daysInMonth y mo ∧
          h ≤ 23 ∧ mi ≤ 59 ∧ s ≤ 59 then
        some ⟨y, mo, d, h, mi, s, off⟩
      else none

/-- `datetime.fromisoformat` on a character list (see the header comment
for the modelled grammar). -/
def fromisoformatL (l : List Char) : Option PyDateTime :=
  match digit4 l with
  | none => none
  | some (y, r1) =>
      match r1 with
      | '-' :: r2 =>
          (match digit2 r2 with
           | none => none
           | some (mo, r3) =>
               match r3 with
               | '-' :: r4 =>
                   (match digit2 r4 with
                    | none => none
                    | some (d, r5) =>
                        match r5 with
                        | [] => buildDT y mo d 0 0 0 []
                        | _ :: r6 =>
                            (match parseHMS r6 with
                             | some (h, mi, s, r7) => buildDT y mo d h mi s r7
                             | none => none))
               | _ => none)
      | _ => none

/-- `datetime.fromisoformat` on strings. -/
def fromisoformat (s : String) : Option PyDateTime :=
  fromisoformatL s.toList

/-- Full English month name (`%B`). -/
def monthName : Nat → String
  | 1 => "January"
  | 2 => "February"
  | 3 => "March"
  | 4 => "April"
  | 5 => "May"
  | 6 => "June"
  | 7 => "July"
  | 8 => "August"
  | 9 => "September"
  | 10 => "October"
  | 11 => "November"
  | 12 => "December"
  | _ => ""

/-- Zero-pad to two digits. -/
def pad2 (n : Nat) : String :=
  if n < 10 then "0" ++ toString n else toString n

/-- Zero-pad to four digits (`%Y`). -/
def pad4 (n : Nat) : String :=
  if n < 10 then "000" ++ toString n
  else if n < 100 then "00" ++ toString n
  else if n < 1000 then "0" ++ toString n
  else toString n

/-- `dt.strftime('%d %B %Y - %I:%M %p UTC')`: zero-padded day, full month
name, year, zero-padded 12-hour clock, minutes, `AM`/`PM`, literal
`UTC`.  Only wall-clock fields are read; the parsed offset is ignored
(relabeled as `UTC`), as in the source. -/
def pyStrftime (dt : PyDateTime) : String :=
  pad2 dt.day ++ " " ++ monthName dt.month ++ " " ++ pad4 dt.year ++ " - " ++
    pad2 (if dt.hour % 12 = 0 then 12 else dt.hour % 12) ++ ":" ++ pad2 dt.minute ++ " " ++
    (if dt.hour < 12 then "AM" else "PM") ++ " UTC"

/-- `format_timestamp` from the source: replace every `'Z'` by
`'+00:00'`, try `fromisoformat`, render with `strftime` on success and
return the argument unchanged on any failure.  The bare `except:` also
catches the `AttributeError` of `.replace` on a non-string argument, so
non-string values are returned unchanged as well. -/
def format_timestamp : JValue → JValue
  | .jstr s =>
      match fromisoformat (pyReplace s "Z" "+00:00") with
      | some dt => .jstr (pyStrftime dt)
      | none => .jstr s
  | v => v

example : format_timestamp (.jstr "2024-03-15T14:30:00Z") =
    .jstr "15 March 2024 - 02:30 PM UTC" := by decide
example : format_timestamp (.jstr "not-a-date") = .jstr "not-a-date" := by decide
example : format_timestamp (.jstr "") = .jstr "" := by decide
example : format_timestamp (.jnum 5) = .jnum 5 := by decide
example : format_timestamp (.jstr "2024-03-15") = .jstr "15 March 2024 - 12:00 AM UTC" := by decide
example : format_timestamp (.jstr "2024-02-30T01:00:00Z") = .jstr "2024-02-30T01:00:00Z" := by decide

/-- The canonical event record built by a normalizer (the `event_data`
dict).  `from_branch` is an `Option` because push records do not contain
the key at all; the other fields hold the raw JSON values the source
stores (only `message` and `action` are always strings, and
`pull_request`/`merge` ids are passed through `str`). -/
structure EventRecord where
  id : JValue
  author : JValue
  from_branch : Option JValue
  to_branch : JValue
  timestamp : JValue
  action : String
  message : String
deriving DecidableEq

/-- Message template of a push record, as in the source f-string (the
f-string re-evaluates the same pure expressions that produced the other
fields, so the normalizer below computes each value once and feeds it to
both places). -/
def pushMessage (author toBranch ts : JValue) : String :=
  pyStr author ++ " pushed to " ++ pyStr toBranch ++ " on " ++ pyStr ts

/-- Message template of a pull-request record. -/
def prMessage (author fromBranch toBranch ts : JValue) : String :=
  pyStr author ++ " submitted a pull request from " ++ pyStr fromBranch ++
    " to " ++ pyStr toBranch ++ " on " ++ pyStr ts

/-- Message template of a merge record. -/
def mergeMessage (author fromBranch toBranch ts : JValue) : String :=
  pyStr author ++ " merged branch " ++ pyStr fromBranch ++ " to " ++
    pyStr toBranch ++ " on " ++ pyStr ts

/-- `process_push_event` from the source.  Each `match` that insists on a
particular constructor mirrors a Python method call that raises on other
shapes: `payload.get` needs a dict, `pusher.get`/`head_commit.get` need
the fetched value to be a dict when the key is present, and
`ref.replace` needs a string.  The `Except.error` cases are the
`AttributeError`s the route handler's `try` catches. -/
def process_push_event (payload : JValue) : Except String EventRecord :=
  match payload with
  | .obj fs =>
      let idV := jget fs "after" (.jstr "")
      match jget fs "pusher" (.obj .nil) with
      | .obj pusherFs =>
          let author := jget pusherFs "name" (.jstr "Unknown")
          match jget fs "ref" (.jstr "") with
          | .jstr refS =>
              let toBranch : JValue := .jstr (pyReplace refS "refs/heads/" "")
              match jget fs "head_commit" (.obj .nil) with
              | .obj hcFs =>
                  let ts := format_timestamp (jget hcFs "timestamp" (.jstr ""))
                  .ok { id := idV, author := author, from_branch := none,
                        to_branch := toBranch, timestamp := ts, action := "push",
                        message := pushMessage author toBranch ts }
              | _ => .error "AttributeError"
          | _ => .error "AttributeError"
      | _ => .error "AttributeError"
  | _ => .error "AttributeError"

/-- `process_pull_request_event` from the source.  `id` goes through
Python's `str`, the branch and author fields are stored raw. -/
def process_pull_request_event (payload : JValue) : Except String EventRecord :=
  match payload with
  | .obj fs =>
      match jget fs "pull_request" (.obj .nil) with
      | .obj pr =>
          let idV : JValue := .jstr (pyStr (jget pr "id" (.jstr "")))
          match jget pr "user" (.obj .nil) with
          | .obj userFs =>
              let author := jget userFs "login" (.jstr "Unknown")
              match jget pr "head" (.obj .nil) with
              | .obj headFs =>
                  let fromBranch := jget headFs "ref" (.jstr "")
                  match jget pr "base" (.obj .nil) with
                  | .obj baseFs =>
                      let toBranch := jget baseFs "ref" (.jstr "")
                      let ts := format_timestamp (jget pr "created_at" (.jstr ""))
                      .ok { id := idV, author := author, from_branch := some fromBranch,
                            to_branch := toBranch, timestamp := ts,
                            action := "pull_request",
                            message := prMessage author fromBranch toBranch ts }
                  | _ => .error "AttributeError"
              | _ => .error "AttributeError"
          | _ => .error "AttributeError"
      | _ => .error "AttributeError"
  | _ => .error "AttributeError"

/-- `process_merge_event` from the source: same field accesses as the
pull-request normalizer except for `merged_by`, `merged_at`, the action
tag and the message template. -/
def process_merge_event (payload : JValue) : Except String EventRecord :=
  match payload with
  | .obj fs =>
      match jget fs "pull_request" (.obj .nil) with
      | .obj pr =>
          let idV : JValue := .jstr (pyStr (jget pr "id" (.jstr "")))
          match jget pr "merged_by" (.obj .nil) with
          | .obj mbFs =>
              let author := jget mbFs "login" (.jstr "Unknown")
              match jget pr "head" (.obj .nil) with
              | .obj headFs =>
                  let fromBranch := jget headFs "ref" (.jstr "")
                  match jget pr "base" (.obj .nil) with
                  | .obj baseFs =>
                      let toBranch := jget baseFs "ref" (.jstr "")
                      let ts := format_timestamp (jget pr "merged_at" (.jstr ""))
                      .ok { id := idV, author := author, from_branch := some fromBranch,
                            to_branch := toBranch, timestamp := ts, action := "merge",
                            message := mergeMessage author fromBranch toBranch ts }
                  | _ => .error "AttributeError"
              | _ => .error "AttributeError"
          | _ => .error "AttributeError"
      | _ => .error "AttributeError"
  | _ => .error "AttributeError"

/-- The `if`/`elif` chain of the `/webhook` route handler, up to and
including the choice of normalizer.  `.ok (some r)` : a normalizer ran
and produced `r`; `.ok none` : `event_data` stayed `None` (ignored);
`.error` : an uncaught exception inside the `try` block
(`payload.get('action')` on a non-dict payload, `.get('merged')` on a
non-dict `pull_request` value, or a normalizer raising). -/
def dispatch (eventType : String) (payload : JValue) : Except String (Option EventRecord) :=
  if eventType = "push" then
    (process_push_event payload).map some
  else if eventType = "pull_request" then
    match payload with
    | .obj fs =>
        if jget fs "action" .null = .jstr "opened" then
          (process_pull_request_event payload).map some
        else if jget fs "action" .null = .jstr "closed" then
          match jget fs "pull_request" (.obj .nil) with
          | .obj pr =>
              if pyTruthy (jget pr "merged" .null) then
                (process_merge_event payload).map some
              else
                .ok none
          | _ => .error "AttributeError"
        else
          .ok none
    | _ => .error "AttributeError"
  else
    .ok none

/-- A MongoDB document of the `events` collection: the normalized record
plus the metadata the route handler adds before `insert_one`
(`created_at` from `datetime.utcnow()`, modelled as an abstract `Nat`,
and the retained raw payload).  Mongo's internal `_id` is the position
in the list. -/
structure StoredEvent where
  event : EventRecord
  created_at : Nat
  raw_payload : JValue
deriving DecidableEq

/-- The `/webhook` route handler: dispatch, then on success stamp
metadata and append to the collection.  Returns the JSON `status` field
with the HTTP code, and the new collection state. -/
def webhook (eventType : String) (payload : JValue) (now : Nat)
    (store : List StoredEvent) : (String × Nat) × List StoredEvent :=
  match dispatch eventType payload with
  | .ok (some ed) => (("success", 200), store ++ [⟨ed, now, payload⟩])
  | .ok none => (("ignored", 200), store)
  | .error _ => (("error", 500), store)

/-- A document as returned by `/api/events`: the projection
`{'_id': 0, 'raw_payload': 0}` keeps every `event_data` field including
`created_at` and drops the Mongo id and the raw payload. -/
structure ApiEvent where
  event : EventRecord
  created_at : Nat
deriving DecidableEq

/-- Projection applied by the read path to each stored document. -/
def apiProj (s : StoredEvent) : ApiEvent :=
  ⟨s.event, s.created_at⟩

/-- Comparator of `sort('created_at', -1)`: newest first. -/
def newerFirst (a b : StoredEvent) : Prop :=
  b.created_at ≤ a.created_at

instance : DecidableRel newerFirst := fun a b => Nat.decLe b.created_at a.created_at

instance : IsTotal StoredEvent newerFirst :=
  ⟨fun a b => Nat.le_total b.created_at a.created_at⟩

instance : IsTrans StoredEvent newerFirst :=
  ⟨fun _ _ _ h1 h2 => Nat.le_trans h2 h1⟩

/-- The `/api/events` route handler:
`collection.find({}, {'_id':0,'raw_payload':0}).sort('created_at',-1).limit(20)`.
Sorting by `created_at` descending is modelled with insertion sort (ties
are ordered arbitrarily by Mongo; every property proved below is
tie-insensitive). -/
def get_events (store : List StoredEvent) : List ApiEvent :=
  ((store.insertionSort newerFirst).take 20).map apiProj


/-- Inversion: a successful push normalization reveals the shape of the
payload and determines every field of the record. -/
theorem push_ok_shape (p : JValue) (r : EventRecord) (h : process_push_event p = .ok r) :
    ∃ fs pusherFs refS hcFs,
      p = .obj fs ∧
      jget fs "pusher" (.obj .nil) = .obj pusherFs ∧
      jget fs "ref" (.jstr "") = .jstr refS ∧
      jget fs "head_commit" (.obj .nil) = .obj hcFs ∧
      r = { id := jget fs "after" (.jstr ""),
            author := jget pusherFs "name" (.jstr "Unknown"),
            from_branch := none,
            to_branch := .jstr (pyReplace refS "refs/heads/" ""),
            timestamp := format_timestamp (jget hcFs "timestamp" (.jstr "")),
            action := "push",
            message := pushMessage (jget pusherFs "name" (.jstr "Unknown"))
                        (.jstr (pyReplace refS "refs/heads/" ""))
                        (format_timestamp (jget hcFs "timestamp" (.jstr ""))) } := by
  cases p
  case obj fs =>
    simp only [process_push_event] at h
    split at h <;> try exact Except.noConfusion h
    case _ pusherFs hp =>
      split at h <;> try exact Except.noConfusion h
      case _ refS href =>
        split at h <;> try exact Except.noConfusion h
        case _ hcFs hhc =>
          injection h with h2
          exact ⟨fs, pusherFs, refS, hcFs, rfl, hp, href, hhc, h2.symm⟩
  all_goals { simp only [process_push_event] at h; exact Except.noConfusion h }

/-- Inversion for a successful pull-request normalization. -/
theorem pr_ok_shape (p : JValue) (r : EventRecord)
    (h : process_pull_request_event p = .ok r) :
    ∃ fs pr userFs headFs baseFs,
      p = .obj fs ∧
      jget fs "pull_request" (.obj .nil) = .obj pr ∧
      jget pr "user" (.obj .nil) = .obj userFs ∧
      jget pr "head" (.obj .nil) = .obj headFs ∧
      jget pr "base" (.obj .nil) = .obj baseFs ∧
      r = { id := .jstr (pyStr (jget pr "id" (.jstr ""))),
            author := jget userFs "login" (.jstr "Unknown"),
            from_branch := some (jget headFs "ref" (.jstr "")),
            to_branch := jget baseFs "ref" (.jstr ""),
            timestamp := format_timestamp (jget pr "created_at" (.jstr "")),
            action := "pull_request",
            message := prMessage (jget userFs "login" (.jstr "Unknown"))
                        (jget headFs "ref" (.jstr ""))
                        (jget baseFs "ref" (.jstr ""))
                        (format_timestamp (jget pr "created_at" (.jstr ""))) } := by
  cases p
  case obj fs =>
    simp only [process_pull_request_event] at h
    split at h <;> try exact Except.noConfusion h
    case _ pr hpr =>
      split at h <;> try exact Except.noConfusion h
      case _ userFs hu =>
        split at h <;> try exact Except.noConfusion h
        case _ headFs hh =>
          split at h <;> try exact Except.noConfusion h
          case _ baseFs hb =>
            injection h with h2
            exact ⟨fs, pr, userFs, headFs, baseFs, rfl, hpr, hu, hh, hb, h2.symm⟩
  all_goals { simp only [process_pull_request_event] at h; exact Except.noConfusion h }

/-- Inversion for a successful merge normalization. -/
theorem merge_ok_shape (p : JValue) (r : EventRecord)
    (h : process_merge_event p = .ok r) :
    ∃ fs pr mbFs headFs baseFs,
      p = .obj fs ∧
      jget fs "pull_request" (.obj .nil) = .obj pr ∧
      jget pr "merged_by" (.obj .nil) = .obj mbFs ∧
      jget pr "head" (.obj .nil) = .obj headFs ∧
      jget pr "base" (.obj .nil) = .obj baseFs ∧
      r = { id := .jstr (pyStr (jget pr "id" (.jstr ""))),
            author := jget mbFs "login" (.jstr "Unknown"),
            from_branch := some (jget headFs "ref" (.jstr "")),
            to_branch := jget baseFs "ref" (.jstr ""),
            timestamp := format_timestamp (jget pr "merged_at" (.jstr "")),
            action := "merge",
            message := mergeMessage (jget mbFs "login" (.jstr "Unknown"))
                        (jget headFs "ref" (.jstr ""))
                        (jget baseFs "ref" (.jstr ""))
                        (format_timestamp (jget pr "merged_at" (.jstr ""))) } := by
  cases p
  case obj fs =>
    simp only [process_merge_event] at h
    split at h <;> try exact Except.noConfusion h
    case _ pr hpr =>
      split at h <;> try exact Except.noConfusion h
      case _ mbFs hu =>
        split at h <;> try exact Except.noConfusion h
        case _ headFs hh =>
          split at h <;> try exact Except.noConfusion h
          case _ baseFs hb =>
            injection h with h2
            exact ⟨fs, pr, mbFs, headFs, baseFs, rfl, hpr, hu, hh, hb, h2.symm⟩
  all_goals { simp only [process_merge_event] at h; exact Except.noConfusion h }

instance {α β : Type} [DecidableEq α] [DecidableEq β] : DecidableEq (Except α β) := fun a b =>
  match a, b with
  | .ok x, .ok y => decidable_of_iff (x = y) (by simp)
  | .error x, .error y => decidable_of_iff (x = y) (by simp)
  | .ok _, .error _ => isFalse (by simp)
  | .error _, .ok _ => isFalse (by simp)

/-- `v` is a JSON object. -/
def isObjV : JValue → Bool
  | .obj _ => true
  | _ => false

/-- `v` is a JSON string. -/
def isStrV : JValue → Bool
  | .jstr _ => true
  | _ => false

/-- The nested values `process_push_event` calls methods on have the
expected types (each may also be missing, the lookup default then has
the right type). -/
def pushShaped (fs : JObj) : Bool :=
  isObjV (jget fs "pusher" (.obj .nil)) && isStrV (jget fs "ref" (.jstr "")) &&
    isObjV (jget fs "head_commit" (.obj .nil))

/-- The nested values the pull-request/merge normalizers call `.get` on
are objects when present (`authorKey` is `"user"` or `"merged_by"`). -/
def prLikeShaped (authorKey : String) (fs : JObj) : Bool :=
  match jget fs "pull_request" (.obj .nil) with
  | .obj pr => isObjV (jget pr authorKey (.obj .nil)) && isObjV (jget pr "head" (.obj .nil)) &&
      isObjV (jget pr "base" (.obj .nil))
  | _ => false

/-- Totality of the push normalizer on well-shaped object payloads. -/
theorem push_total (fs : JObj) (h : pushShaped fs = true) :
    (process_push_event (.obj fs)).isOk = true := by
  rcases hp : jget fs "pusher" (.obj .nil) with _ | b | n | s | pusherFs | a <;>
    simp [pushShaped, isObjV, isStrV, hp] at h
  rcases href : jget fs "ref" (.jstr "") with _ | b | n | s | o | a <;>
    simp [isStrV, href] at h
  rcases hhc : jget fs "head_commit" (.obj .nil) with _ | b | n | s2 | hcFs | a <;>
    simp [isObjV, hhc] at h
  simp only [process_push_event, hp, href, hhc, Except.isOk]
  rfl

/-- Totality of the pull-request normalizer on well-shaped payloads. -/
theorem pr_total (fs : JObj) (h : prLikeShaped "user" fs = true) :
    (process_pull_request_event (.obj fs)).isOk = true := by
  rcases hpr : jget fs "pull_request" (.obj .nil) with _ | b | n | s | pr | a <;>
    simp [prLikeShaped, hpr] at h
  rcases hu : jget pr "user" (.obj .nil) with _ | b | n | s | userFs | a <;>
    simp [isObjV, hu] at h
  rcases hh : jget pr "head" (.obj .nil) with _ | b | n | s | headFs | a <;>
    simp [isObjV, hh] at h
  rcases hb : jget pr "base" (.obj .nil) with _ | b | n | s | baseFs | a <;>
    simp [isObjV, hb] at h
  simp only [process_pull_request_event, hpr, hu, hh, hb, Except.isOk]
  rfl

/-- Totality of the merge normalizer on well-shaped payloads. -/
theorem merge_total (fs : JObj) (h : prLikeShaped "merged_by" fs = true) :
    (process_merge_event (.obj fs)).isOk = true := by
  rcases hpr : jget fs "pull_request" (.obj .nil) with _ | b | n | s | pr | a <;>
    simp [prLikeShaped, hpr] at h
  rcases hu : jget pr "merged_by" (.obj .nil) with _ | b | n | s | mbFs | a <;>
    simp [isObjV, hu] at h
  rcases hh : jget pr "head" (.obj .nil) with _ | b | n | s | headFs | a <;>
    simp [isObjV, hh] at h
  rcases hb : jget pr "base" (.obj .nil) with _ | b | n | s | baseFs | a <;>
    simp [isObjV, hb] at h
  simp only [process_merge_event, hpr, hu, hh, hb, Except.isOk]
  rfl

/-- Field list of a fully populated push payload. -/
def exPushFs : JObj :=
  .cons "after" (.jstr "abc123")
    (.cons "pusher" (.obj (.cons "name" (.jstr "alice") .nil))
      (.cons "ref" (.jstr "refs/heads/main")
        (.cons "head_commit" (.obj (.cons "timestamp" (.jstr "2024-03-15T14:30:00Z") .nil))
          .nil)))

/-- A fully populated push payload. -/
def exPush : JValue := .obj exPushFs

/-- The record `process_push_event` produces from `exPush`. -/
def exPushRec : EventRecord :=
  { id := .jstr "abc123", author := .jstr "alice", from_branch := none,
    to_branch := .jstr "main", timestamp := .jstr "15 March 2024 - 02:30 PM UTC",
    action := "push",
    message := "alice pushed to main on 15 March 2024 - 02:30 PM UTC" }

example : process_push_event exPush = .ok exPushRec := by decide

/-- The record the push normalizer produces from the empty object (every
lookup falls back to its default). -/
def emptyPushRec : EventRecord :=
  { id := .jstr "", author := .jstr "Unknown", from_branch := none,
    to_branch := .jstr "", timestamp := .jstr "", action := "push",
    message := "Unknown pushed to  on " }

example : process_push_event (.obj .nil) = .ok emptyPushRec := by decide

/-- A fully populated `pull_request`-opened payload. -/
def exPROpened : JValue :=
  .obj (.cons "action" (.jstr "opened")
    (.cons "pull_request" (.obj
      (.cons "id" (.jnum 42)
        (.cons "user" (.obj (.cons "login" (.jstr "bob") .nil))
          (.cons "head" (.obj (.cons "ref" (.jstr "feature") .nil))
            (.cons "base" (.obj (.cons "ref" (.jstr "main") .nil))
              (.cons "created_at" (.jstr "2024-03-15T14:30:00Z") .nil))))))
      .nil))

/-- The record `process_pull_request_event` produces from `exPROpened`. -/
def exPRRec : EventRecord :=
  { id := .jstr "42", author := .jstr "bob", from_branch := some (.jstr "feature"),
    to_branch := .jstr "main", timestamp := .jstr "15 March 2024 - 02:30 PM UTC",
    action := "pull_request",
    message := "bob submitted a pull request from feature to main on 15 March 2024 - 02:30 PM UTC" }

example : process_pull_request_event exPROpened = .ok exPRRec := by decide

/-- The record `process_merge_event` produces from `exPROpened` (no
`merged_by`/`merged_at`: both fall back to defaults). -/
def exMergeOfPRRec : EventRecord :=
  { id := .jstr "42", author := .jstr "Unknown", from_branch := some (.jstr "feature"),
    to_branch := .jstr "main", timestamp := .jstr "",
    action := "merge",
    message := "Unknown merged branch feature to main on " }

example : process_merge_event exPROpened = .ok exMergeOfPRRec := by decide

/-- A payload whose `pull_request` object lacks the `id` key. -/
def exNoIdPR : JValue := .obj (.cons "pull_request" (.obj .nil) .nil)

/-- The record the pull-request normalizer produces from `exNoIdPR`. -/
def emptyPRRec : EventRecord :=
  { id := .jstr "", author := .jstr "Unknown", from_branch := some (.jstr ""),
    to_branch := .jstr "", timestamp := .jstr "", action := "pull_request",
    message := "Unknown submitted a pull request from  to  on " }

example : process_pull_request_event exNoIdPR = .ok emptyPRRec := by decide

/-- `to_branch` as the spec words it: a leading `refs/heads/` stripped
once when present, the string unchanged otherwise. -/
def stripLeadingOnce (s : String) : String :=
  if listIsPre "refs/heads/".toList s.toList then ⟨s.toList.drop "refs/heads/".length⟩ else s

/-- C2 counterexample input: a push payload whose `pusher` field is the
string `"bob"` rather than an object. -/
def exPusherString : JValue := .obj (.cons "pusher" (.jstr "bob") .nil)

/-- C2: the claim "each of the three normalizers succeeds without
raising an error for every payload, even ones whose nested fields have
non-object values" is false: with `pusher` bound to a string, the
source's `payload.get('pusher', {}).get('name', 'Unknown')` raises
`AttributeError` (`str` has no `get`), so `process_push_event` errors
instead of succeeding. -/
theorem c2_counterexample :
    process_push_event exPusherString = .error "AttributeError" := by decide

/-- C2 (amended): the three normalizers are total on payloads that are
objects whose accessed nested fields, when present, have the expected
types (`pusher`/`head_commit`/`pull_request`/`user`/`merged_by`/`head`/
`base` objects, push `ref` a string); every missing field degrades to
its default, and in particular a push payload whose `pusher` object has
no `name` yields `author = "Unknown"`. -/
theorem c2_normalizers_total :
    (∀ fs, pushShaped fs = true → (process_push_event (.obj fs)).isOk = true) ∧
    (∀ fs, prLikeShaped "user" fs = true →
      (process_pull_request_event (.obj fs)).isOk = true) ∧
    (∀ fs, prLikeShaped "merged_by" fs = true →
      (process_merge_event (.obj fs)).isOk = true) ∧
    (∀ fs pusherFs r, jget fs "pusher" (.obj .nil) = .obj pusherFs →
      JObj.lookup pusherFs "name" = none →
      process_push_event (.obj fs) = .ok r → r.author = .jstr "Unknown") := by
  refine ⟨push_total, pr_total, merge_total, ?_⟩
  intro fs pusherFs r hp hname h
  rcases push_ok_shape _ _ h with ⟨fs2, pusherFs2, refS, hcFs, hfs, hp2, _, _, rfl⟩
  cases hfs
  rw [hp] at hp2
  cases hp2
  simp [jget, hname]

/-- C2 witness: the empty-object payload is well shaped, normalizes
successfully, and (its `pusher` defaulting to `{}`, which has no
`name`) gets author `"Unknown"`. -/
theorem c2_normalizers_total_witness :
    (process_push_event (.obj .nil)).isOk = true ∧ emptyPushRec.author = .jstr "Unknown" :=
  ⟨c2_normalizers_total.1 .nil (by decide),
   c2_normalizers_total.2.2.2 .nil .nil emptyPushRec (by decide) (by decide) (by decide)⟩

/-- C4 counterexample input. -/
def exPushDoubled : JValue := .obj (.cons "ref" (.jstr "refs/heads/refs/heads/x") .nil)

/-- C4: the claim "to_branch equals payload.ref with a leading
`refs/heads/` prefix stripped when present, unchanged otherwise" is
false: `str.replace` removes every occurrence, so
`ref = "refs/heads/refs/heads/x"` produces `to_branch = "x"` where the
claim predicts `"refs/heads/x"`. -/
theorem c4_counterexample :
    (process_push_event exPushDoubled).map (fun r => r.to_branch) = .ok (.jstr "x") ∧
    stripLeadingOnce "refs/heads/refs/heads/x" = "refs/heads/x" ∧
    ("x" : String) ≠ "refs/heads/x" := by decide

/-- C4 (amended): `to_branch` equals `payload.ref` with every occurrence
of the substring `refs/heads/` removed; on refs where `refs/heads/`
occurs at most once and only as a leading segment this coincides with
prefix-stripping, and in particular `"refs/heads/main"` yields
`"main"` and `"main"` yields `"main"`. -/
theorem c4_to_branch :
    (∀ fs refS r, jget fs "ref" (.jstr "") = .jstr refS →
      process_push_event (.obj fs) = .ok r →
      r.to_branch = .jstr (pyReplace refS "refs/heads/" "")) ∧
    pyReplace "refs/heads/main" "refs/heads/" "" = "main" ∧
    pyReplace "main" "refs/heads/" "" = "main" ∧
    stripLeadingOnce "refs/heads/main" = "main" ∧
    stripLeadingOnce "main" = "main" := by
  refine ⟨?_, by decide, by decide, by decide, by decide⟩
  intro fs refS r href h
  rcases push_ok_shape _ _ h with ⟨fs2, pusherFs, refS2, hcFs, hfs, _, href2, _, rfl⟩
  cases hfs
  rw [href] at href2
  cases href2
  rfl

/-- C4 witness at `exPush` (`ref = "refs/heads/main"`). -/
theorem c4_to_branch_witness :
    exPushRec.to_branch = .jstr (pyReplace "refs/heads/main" "refs/heads/" "") :=
  c4_to_branch.1 exPushFs "refs/heads/main" exPushRec (by decide) (by decide)

/-- C5: round-trip of the message field — for every record any of the
three normalizers produces, re-applying that action kind's message
template to the record's own author, from_branch, to_branch and
timestamp fields (the templates do not mention id) reproduces the
record's message string exactly. -/
theorem c5_message_roundtrip : ∀ p r,
    (process_push_event p = .ok r →
      r.message = pushMessage r.author r.to_branch r.timestamp) ∧
    (process_pull_request_event p = .ok r → ∀ fb, r.from_branch = some fb →
      r.message = prMessage r.author fb r.to_branch r.timestamp) ∧
    (process_merge_event p = .ok r → ∀ fb, r.from_branch = some fb →
      r.message = mergeMessage r.author fb r.to_branch r.timestamp) := by
  intro p r
  refine ⟨?_, ?_, ?_⟩
  · intro h
    rcases push_ok_shape _ _ h with ⟨fs, pusherFs, refS, hcFs, _, _, _, _, rfl⟩
    rfl
  · intro h fb hfb
    rcases pr_ok_shape _ _ h with ⟨fs, pr, userFs, headFs, baseFs, _, _, _, _, _, rfl⟩
    cases hfb
    rfl
  · intro h fb hfb
    rcases merge_ok_shape _ _ h with ⟨fs, pr, mbFs, headFs, baseFs, _, _, _, _, _, rfl⟩
    cases hfb
    rfl

/-- C5 witness: the round-trip at the concrete push payload `exPush` and
the concrete pull-request payload `exPROpened`. -/
theorem c5_message_roundtrip_witness :
    exPushRec.message = pushMessage exPushRec.author exPushRec.to_branch exPushRec.timestamp ∧
    exPRRec.message = prMessage exPRRec.author (.jstr "feature") exPRRec.to_branch exPRRec.timestamp :=
  ⟨(c5_message_roundtrip exPush exPushRec).1 (by decide),
   (c5_message_roundtrip exPROpened exPRRec).2.1 (by decide) (.jstr "feature") (by decide)⟩

/-- C9: on any payload on which both succeed, the pull-request-opened
and merge normalizers produce identical id, from_branch and to_branch,
since both read exactly `payload.pull_request.id`,
`payload.pull_request.head.ref` and `payload.pull_request.base.ref`
with the same defaults. -/
theorem c9_pr_merge_agree : ∀ p r1 r2,
    process_pull_request_event p = .ok r1 → process_merge_event p = .ok r2 →
    r1.id = r2.id ∧ r1.from_branch = r2.from_branch ∧ r1.to_branch = r2.to_branch := by
  intro p r1 r2 h1 h2
  rcases pr_ok_shape _ _ h1 with ⟨fs, pr, userFs, headFs, baseFs, hfs, hpr, _, hh, hb, rfl⟩
  rcases merge_ok_shape _ _ h2 with ⟨fs2, pr2, mbFs, headFs2, baseFs2, hfs2, hpr2, _, hh2, hb2, rfl⟩
  rw [hfs] at hfs2
  cases hfs2
  rw [hpr] at hpr2
  cases hpr2
  rw [hh] at hh2
  cases hh2
  rw [hb] at hb2
  cases hb2
  exact ⟨rfl, rfl, rfl⟩

/-- C9 witness: at `exPROpened` both normalizers succeed and agree on
id, from_branch and to_branch. -/
theorem c9_pr_merge_agree_witness :
    exPRRec.id = exMergeOfPRRec.id ∧
    exPRRec.from_branch = exMergeOfPRRec.from_branch ∧
    exPRRec.to_branch = exMergeOfPRRec.to_branch :=
  c9_pr_merge_agree exPROpened exPRRec exMergeOfPRRec (by decide) (by decide)

/-- C10: a missing source identifier yields the empty-string id — a push
payload without `after` gives `id = ""`, and a `pull_request` object
without `id` gives `id = ""` in both the pull-request and the merge
normalizer (the default is applied before `str`). -/
theorem c10_missing_id_empty :
    (∀ fs r, JObj.lookup fs "after" = none →
      process_push_event (.obj fs) = .ok r → r.id = .jstr "") ∧
    (∀ fs pr r, jget fs "pull_request" (.obj .nil) = .obj pr →
      JObj.lookup pr "id" = none →
      process_pull_request_event (.obj fs) = .ok r → r.id = .jstr "") ∧
    (∀ fs pr r, jget fs "pull_request" (.obj .nil) = .obj pr →
      JObj.lookup pr "id" = none →
      process_merge_event (.obj fs) = .ok r → r.id = .jstr "") := by
  refine ⟨?_, ?_, ?_⟩
  · intro fs r hafter h
    rcases push_ok_shape _ _ h with ⟨fs2, pusherFs, refS, hcFs, hfs, _, _, _, rfl⟩
    cases hfs
    simp [jget, hafter]
  · intro fs pr r hpr hid h
    rcases pr_ok_shape _ _ h with ⟨fs2, pr2, userFs, headFs, baseFs, hfs, hpr2, _, _, _, rfl⟩
    cases hfs
    rw [hpr] at hpr2
    cases hpr2
    simp [jget, hid, pyStr]
  · intro fs pr r hpr hid h
    rcases merge_ok_shape _ _ h with ⟨fs2, pr2, mbFs, headFs, baseFs, hfs, hpr2, _, _, _, rfl⟩
    cases hfs
    rw [hpr] at hpr2
    cases hpr2
    simp [jget, hid, pyStr]

/-- C10 witness: the empty push payload has no `after` key and gets
`id = ""`; `exNoIdPR` has a `pull_request` object with no `id` key and
gets `id = ""`. -/
theorem c10_missing_id_empty_witness :
    emptyPushRec.id = .jstr "" ∧ emptyPRRec.id = .jstr "" :=
  ⟨c10_missing_id_empty.1 .nil emptyPushRec (by decide) (by decide),
   c10_missing_id_empty.2.1 (.cons "pull_request" (.obj .nil) .nil) .nil emptyPRRec
     (by decide) (by decide) (by decide)⟩

/-- C8: the merge dispatch rule tests `pull_request.merged` for Python
truthiness, not equality with `True`: under header `pull_request` and
`action == "closed"`, any truthy `merged` (e.g. a non-empty string or a
nonzero number) invokes the merge normalizer, while a falsy or absent
`merged` (`False`, `None`, `0`, `""`, missing key — the lookup then
defaults to `None`) makes the request come out `ignored`. -/
theorem c8_merged_truthiness : ∀ fs pr now store,
    jget fs "action" .null = .jstr "closed" →
    jget fs "pull_request" (.obj .nil) = .obj pr →
    ((pyTruthy (jget pr "merged" .null) = true →
      dispatch "pull_request" (.obj fs) = (process_merge_event (.obj fs)).map some) ∧
     (pyTruthy (jget pr "merged" .null) = false →
      webhook "pull_request" (.obj fs) now store = (("ignored", 200), store))) ∧
    (pyTruthy (.jstr "yes") = true ∧ pyTruthy (.jnum 3) = true ∧
     pyTruthy (.jbool false) = false ∧ pyTruthy .null = false ∧
     pyTruthy (.jnum 0) = false ∧ pyTruthy (.jstr "") = false) := by
  intro fs pr now store ha hpr
  refine ⟨⟨?_, ?_⟩, by decide, by decide, by decide, by decide, by decide, by decide⟩
  · intro hm
    simp [dispatch, ha, hpr, hm]
  · intro hm
    simp [webhook, dispatch, ha, hpr, hm]

/-- Field list of a closed-pull-request payload with a truthy non-`True`
`merged` value. -/
def exClosedTruthyFs : JObj :=
  .cons "action" (.jstr "closed")
    (.cons "pull_request" (.obj (.cons "merged" (.jstr "yes") .nil)) .nil)

/-- Field list of a closed-pull-request payload with `merged = false`. -/
def exClosedFalseFs : JObj :=
  .cons "action" (.jstr "closed")
    (.cons "pull_request" (.obj (.cons "merged" (.jbool false) .nil)) .nil)

/-- C8 witness: `merged = "yes"` (truthy, not `True`) routes to the
merge normalizer; `merged = false` comes out `ignored`. -/
theorem c8_merged_truthiness_witness :
    dispatch "pull_request" (.obj exClosedTruthyFs) =
      (process_merge_event (.obj exClosedTruthyFs)).map some ∧
    webhook "pull_request" (.obj exClosedFalseFs) 1 [] = (("ignored", 200), []) :=
  ⟨((c8_merged_truthiness exClosedTruthyFs (.cons "merged" (.jstr "yes") .nil) 1 []
      (by decide) (by decide)).1.1 (by decide)),
   ((c8_merged_truthiness exClosedFalseFs (.cons "merged" (.jbool false) .nil) 1 []
      (by decide) (by decide)).1.2 (by decide))⟩

/-- Mapping `some` over an `Except` is `.ok (some r)` only when the
underlying computation succeeded with `r`. -/
theorem map_some_ok {e : Except String EventRecord} {r : EventRecord}
    (h : e.map some = .ok (some r)) : e = .ok r := by
  cases e with
  | error a => simp [Except.map] at h
  | ok a =>
      simp [Except.map] at h
      exact congrArg Except.ok h

/-- Inversion of the dispatcher: a stored record always comes from one
of the three normalizers. -/
theorem dispatch_ok_some (et : String) (p : JValue) (r : EventRecord)
    (h : dispatch et p = .ok (some r)) :
    process_push_event p = .ok r ∨ process_pull_request_event p = .ok r ∨
      process_merge_event p = .ok r := by
  unfold dispatch at h
  repeat' split at h
  all_goals first
    | exact Or.inl (map_some_ok h)
    | exact Or.inr (Or.inl (map_some_ok h))
    | exact Or.inr (Or.inr (map_some_ok h))
    | exact Option.noConfusion (Except.ok.inj h)
    | exact Except.noConfusion h

/-- C6: every record the ingestion path persists has an `action` drawn
from exactly {"push", "pull_request", "merge"}, has no `from_branch`
key when the action is "push", and has a `from_branch` key when the
action is "pull_request" or "merge". -/
theorem c6_stored_invariant : ∀ et p now store s,
    s ∈ (webhook et p now store).2 →
    s ∈ store ∨
      ((s.event.action = "push" ∨ s.event.action = "pull_request" ∨
          s.event.action = "merge") ∧
        (s.event.action = "push" → s.event.from_branch = none) ∧
        ((s.event.action = "pull_request" ∨ s.event.action = "merge") →
          s.event.from_branch ≠ none)) := by
  intro et p now store s hs
  unfold webhook at hs
  cases hd : dispatch et p with
  | error e =>
      rw [hd] at hs
      exact Or.inl hs
  | ok o =>
      cases o with
      | none =>
          rw [hd] at hs
          exact Or.inl hs
      | some ed =>
          rw [hd] at hs
          simp only [List.mem_append, List.mem_singleton] at hs
          rcases hs with hmem | rfl
          · exact Or.inl hmem
          · right
            rcases dispatch_ok_some et p ed hd with h | h | h
            · rcases push_ok_shape _ _ h with ⟨_, _, _, _, _, _, _, _, rfl⟩
              exact ⟨Or.inl rfl, fun _ => rfl, fun hc => by simp at hc⟩
            · rcases pr_ok_shape _ _ h with ⟨_, _, _, _, _, _, _, _, _, _, rfl⟩
              exact ⟨Or.inr (Or.inl rfl), fun hc => by simp at hc,
                fun _ => Option.noConfusion⟩
            · rcases merge_ok_shape _ _ h with ⟨_, _, _, _, _, _, _, _, _, _, rfl⟩
              exact ⟨Or.inr (Or.inr rfl), fun hc => by simp at hc,
                fun _ => Option.noConfusion⟩

/-- C6 witness: the record stored for the concrete push delivery
`exPush` satisfies the invariant. -/
theorem c6_stored_invariant_witness :
    ((exPushRec.action = "push" ∨ exPushRec.action = "pull_request" ∨
        exPushRec.action = "merge") ∧
      (exPushRec.action = "push" → exPushRec.from_branch = none) ∧
      ((exPushRec.action = "pull_request" ∨ exPushRec.action = "merge") →
        exPushRec.from_branch ≠ none)) :=
  (c6_stored_invariant "push" exPush 1 [] ⟨exPushRec, 1, exPush⟩
      (by decide)).resolve_left (by decide)

/-- C1 counterexample input: `action = "closed"` with `pull_request`
bound to the number `0`, so `merged` is absent (and the lookup raises). -/
def exClosedBadFs : JObj :=
  .cons "action" (.jstr "closed") (.cons "pull_request" (.jnum 0) .nil)

/-- C1: two parts of the claim fail on the code.  (i) With header
`pull_request`, `action = "closed"` and `merged = "yes"` — a combination
outside the claim's three rules, since `merged == true` is false — the
outcome is `success`, not `ignored`: the code tests truthiness.  (ii)
With `pull_request` bound to `0` (merged absent), the `.get('merged')`
call raises and the outcome is the 500 `error`, not `ignored`.  Neither
input appends a record only in case (ii). -/
theorem c1_counterexample :
    (webhook "pull_request" (.obj exClosedTruthyFs) 1 []).1 = ("success", 200) ∧
    ("success", 200) ≠ (("ignored", 200) : String × Nat) ∧
    (webhook "pull_request" (.obj exClosedBadFs) 1 []).1 = ("error", 500) ∧
    (webhook "pull_request" (.obj exClosedBadFs) 1 []).2 = [] := by decide

/-- C1 (amended): the entry point routes by first match — header
`push` always invokes the push normalizer; header `pull_request` with
`action == "opened"` the pull-request normalizer; header `pull_request`
with `action == "closed"` and a truthy `pull_request.merged` the merge
normalizer.  Every other combination whose dict lookups succeed (an
unrecognized header with any payload; header `pull_request` on an
object payload with an unrecognized action, or with action `closed`
and falsy-or-absent `merged` under an object-or-absent `pull_request`)
yields outcome `ignored` with the store unchanged; and whenever the
outcome is not `success` no record is appended (lookups that raise
yield the `error` outcome instead of `ignored`). -/
theorem c1_dispatch_first_match : ∀ et p now store,
    (et = "push" → dispatch et p = (process_push_event p).map some) ∧
    (∀ fs, p = .obj fs → jget fs "action" .null = .jstr "opened" →
      dispatch "pull_request" p = (process_pull_request_event p).map some) ∧
    (∀ fs pr, p = .obj fs → jget fs "action" .null = .jstr "closed" →
      jget fs "pull_request" (.obj .nil) = .obj pr →
      pyTruthy (jget pr "merged" .null) = true →
      dispatch "pull_request" p = (process_merge_event p).map some) ∧
    (et ≠ "push" → et ≠ "pull_request" →
      webhook et p now store = (("ignored", 200), store)) ∧
    (∀ fs, p = .obj fs → jget fs "action" .null ≠ .jstr "opened" →
      jget fs "action" .null ≠ .jstr "closed" →
      webhook "pull_request" p now store = (("ignored", 200), store)) ∧
    (∀ fs pr, p = .obj fs → jget fs "action" .null = .jstr "closed" →
      jget fs "pull_request" (.obj .nil) = .obj pr →
      pyTruthy (jget pr "merged" .null) = false →
      webhook "pull_request" p now store = (("ignored", 200), store)) ∧
    ((webhook et p now store).1 ≠ ("success", 200) →
      (webhook et p now store).2 = store) := by
  intro et p now store
  refine ⟨?_, ?_, ?_, ?_, ?_, ?_, ?_⟩
  · intro he
    subst he
    simp [dispatch]
  · intro fs hp ha
    subst hp
    simp [dispatch, ha]
  · intro fs pr hp ha hpr hm
    subst hp
    simp [dispatch, ha, hpr, hm]
  · intro h1 h2
    simp [webhook, dispatch, h1, h2]
  · intro fs hp ha1 ha2
    subst hp
    simp [webhook, dispatch, ha1, ha2]
  · intro fs pr hp ha hpr hm
    subst hp
    simp [webhook, dispatch, ha, hpr, hm]
  · intro hne
    unfold webhook at hne ⊢
    cases hd : dispatch et p with
    | error e => rfl
    | ok o =>
        cases o with
        | none => rfl
        | some ed =>
            rw [hd] at hne
            exact absurd rfl hne

/-- C1 witness: rule 1 at the concrete push payload, and the catch-all
at the unrecognized header `issues`. -/
theorem c1_dispatch_first_match_witness :
    dispatch "push" exPush = (process_push_event exPush).map some ∧
    webhook "issues" (.jnum 3) 1 [] = (("ignored", 200), []) :=
  ⟨(c1_dispatch_first_match "push" exPush 1 []).1 rfl,
   (c1_dispatch_first_match "issues" (.jnum 3) 1 []).2.2.2.1 (by decide) (by decide)⟩

/-- 25 stored records with strictly increasing `created_at`. -/
def mkStored (i : Nat) : StoredEvent := ⟨emptyPushRec, i, .null⟩

/-- The collection after inserting `mkStored 0 … mkStored 24`. -/
def store25 : List StoredEvent := (List.range 25).map mkStored

/-- The 20 most recent of `store25`, newest first, projected. -/
def expected25 : List ApiEvent := (List.range 20).map (fun k => ⟨emptyPushRec, 24 - k⟩)

/-- C7: the read path returns the most recent `min(20, n)` records,
ordered by `created_at` descending — the result has length
`min 20 n`, is sorted newest-first, consists of projections of stored
records (`apiProj` contains neither `raw_payload` nor the storage
identifier), every omitted stored record is no newer than every
returned one, the empty store yields `[]` (never a null), and after
inserting 25 records with strictly increasing `created_at` exactly the
20 most recent come back, newest first. -/
theorem c7_read_path : ∀ store : List StoredEvent,
    (get_events store).length = min 20 store.length ∧
    List.Sorted (fun a b : ApiEvent => b.created_at ≤ a.created_at) (get_events store) ∧
    (∀ r ∈ get_events store, ∃ s, s ∈ store ∧ r = apiProj s) ∧
    (∀ s ∈ store, apiProj s ∉ get_events store →
      ∀ r ∈ get_events store, s.created_at ≤ r.created_at) ∧
    get_events [] = [] ∧
    get_events store25 = expected25 := by
  intro store
  refine ⟨?_, ?_, ?_, ?_, rfl, by decide⟩
  · simp [get_events, List.length_take, List.length_insertionSort]
  · have ht : List.Sorted newerFirst ((store.insertionSort newerFirst).take 20) :=
      (List.sorted_insertionSort newerFirst store).sublist (List.take_sublist _ _)
    exact List.pairwise_map.mpr ht
  · intro r hr
    rcases List.mem_map.mp hr with ⟨s, hs, rfl⟩
    exact ⟨s, (List.perm_insertionSort newerFirst store).subset (List.take_subset _ _ hs), rfl⟩
  · intro s hsmem hnot r hr
    have hsl : s ∈ store.insertionSort newerFirst :=
      (List.perm_insertionSort newerFirst store).symm.subset hsmem
    have hpw : List.Pairwise newerFirst
        ((store.insertionSort newerFirst).take 20 ++ (store.insertionSort newerFirst).drop 20) := by
      rw [List.take_append_drop]
      exact List.sorted_insertionSort newerFirst store
    have hsd : s ∈ (store.insertionSort newerFirst).drop 20 := by
      rcases List.mem_append.mp ((List.take_append_drop 20 (store.insertionSort newerFirst)).symm ▸ hsl) with h | h
      · exact absurd (List.mem_map_of_mem apiProj h) hnot
      · exact h
    rcases List.mem_map.mp hr with ⟨t, htmem, rfl⟩
    exact (List.pairwise_append.mp hpw).2.2 t htmem s hsd

/-- C7 witness: on `store25`, the length equation holds, and the
omitted oldest record (`created_at = 0`) is no newer than the returned
newest one (`created_at = 24`). -/
theorem c7_read_path_witness :
    (get_events store25).length = min 20 store25.length ∧
    (mkStored 0).created_at ≤ (⟨emptyPushRec, 24⟩ : ApiEvent).created_at :=
  ⟨(c7_read_path store25).1,
   (c7_read_path store25).2.2.2.1 (mkStored 0) (by decide) (by decide)
     ⟨emptyPushRec, 24⟩ (by decide)⟩

/-- The six characters `'Z'` is rewritten to. -/
def zrep : List Char := ['+', '0', '0', ':', '0', '0']

/-- Single-character replacement step of `pyReplaceL` at pattern `"Z"`. -/
theorem replaceZ_cons (c : Char) (cs : List Char) :
    pyReplaceL ['Z'] zrep (c :: cs) =
      if c = 'Z' then zrep ++ pyReplaceL ['Z'] zrep cs else c :: pyReplaceL ['Z'] zrep cs := by
  by_cases h : c = 'Z'
  · subst h
    simp [pyReplaceL, pyReplaceGo, listIsPre]
  · simp [pyReplaceL, pyReplaceGo, listIsPre, h, Ne.symm h]

/-- Replacing `'Z'` in a string that has none is the identity. -/
theorem replaceZ_of_not_mem : ∀ {l : List Char}, 'Z' ∉ l →
    pyReplaceL ['Z'] zrep l = l := by
  intro l
  induction l with
  | nil => intro _; rfl
  | cons c cs ih =>
      intro h
      rw [replaceZ_cons]
      rw [if_neg (fun hc => h (by rw [← hc]; exact List.mem_cons_self c cs))]
      rw [ih (fun hm => h (List.mem_cons_of_mem c hm))]

/-- Replacement at the first occurrence of `'Z'`. -/
theorem replaceZ_first_occ : ∀ {l0 : List Char}, 'Z' ∉ l0 → ∀ rest,
    pyReplaceL ['Z'] zrep (l0 ++ 'Z' :: rest) =
      l0 ++ zrep ++ pyReplaceL ['Z'] zrep rest := by
  intro l0
  induction l0 with
  | nil =>
      intro _ rest
      rw [List.nil_append, replaceZ_cons, if_pos rfl]
      rfl
  | cons c cs ih =>
      intro h rest
      rw [List.cons_append, replaceZ_cons,
        if_neg (fun hc => h (by rw [← hc]; exact List.mem_cons_self c cs)),
        ih (fun hm => h (List.mem_cons_of_mem c hm)) rest]
      rfl

/-- `format_timestamp` as the spec words it: only a trailing `'Z'` is
rewritten to `'+00:00'`; on a successful parse render, on failure
return the original string unchanged. -/
def zSpecL (l : List Char) : List Char :=
  if l.getLast? = some 'Z' then l.dropLast ++ zrep else l

/-- The spec-worded timestamp formatter (trailing-`Z` handling only). -/
def formatTimestampSpec (s : String) : String :=
  match fromisoformatL (zSpecL s.toList) with
  | some dt => pyStrftime dt
  | none => s


example : format_timestamp (.jstr "2024-03-15T14:30:00+05:30:10") =
    .jstr "15 March 2024 - 02:30 PM UTC" := by decide
example : format_timestamp (.jstr "2024-03-15x14:30") =
    .jstr "15 March 2024 - 02:30 PM UTC" := by decide
example : format_timestamp (.jstr "2024-03-15T14:30:00+24:00") =
    .jstr "2024-03-15T14:30:00+24:00" := by decide

/-- C3 counterexample (behavior verified against CPython): in
`"2024-03-15T14:30:00Z:30"` the `Z` is not trailing, so the claim
prescribes parsing the string as is — which fails, a literal `Z` being
no valid offset start — and predicts passthrough.  The code instead
rewrites the interior `Z` too, producing
`"2024-03-15T14:30:00+00:00:30"`, a valid ISO-8601 string with an
offset-with-seconds, and renders it. -/
theorem c3_counterexample :
    format_timestamp (.jstr "2024-03-15T14:30:00Z:30") =
      .jstr "15 March 2024 - 02:30 PM UTC" ∧
    formatTimestampSpec "2024-03-15T14:30:00Z:30" = "2024-03-15T14:30:00Z:30" ∧
    ("15 March 2024 - 02:30 PM UTC" : String) ≠ "2024-03-15T14:30:00Z:30" := by decide

/-- C3 (amended): the source rewrites EVERY occurrence of `Z` to
`+00:00` (`str.replace`), not only a trailing one.  For every input in
which `Z` occurs at most once, and then only as the final character —
which includes all conformant source timestamps — the claim's
description is exact: the trailing `Z` is treated as a `+00:00`
offset, a successful parse renders `DD Month YYYY - hh:mm AM/PM UTC`
without converting the source offset, and any parse failure returns
the input unchanged; in particular the two cited examples hold.  On
strings with an interior `Z` the two rules can differ (see the
counterexample). -/
theorem c3_format_timestamp_trailing :
    (∀ s : String, ('Z' ∉ s.toList ∨ ∃ l0, s.toList = l0 ++ ['Z'] ∧ 'Z' ∉ l0) →
      format_timestamp (.jstr s) = .jstr (formatTimestampSpec s)) ∧
    format_timestamp (.jstr "2024-03-15T14:30:00Z") = .jstr "15 March 2024 - 02:30 PM UTC" ∧
    format_timestamp (.jstr "not-a-date") = .jstr "not-a-date" := by
  refine ⟨?_, by decide, by decide⟩
  intro s hs
  have hkey : pyReplaceL ['Z'] zrep s.toList = zSpecL s.toList := by
    rcases hs with hz | ⟨l0, hl, hz0⟩
    · rw [replaceZ_of_not_mem hz]
      unfold zSpecL
      rw [if_neg ?_]
      intro hgl
      rcases List.mem_getLast?_eq_getLast hgl with ⟨hne, heq⟩
      exact hz (heq ▸ List.getLast_mem hne)
    · rw [hl, replaceZ_first_occ hz0 []]
      unfold zSpecL
      rw [if_pos (List.getLast?_concat l0), List.dropLast_concat]
      have hemp : pyReplaceL ['Z'] zrep ([] : List Char) = [] := rfl
      rw [hemp, List.append_nil]
  have h1 : fromisoformat (pyReplace s "Z" "+00:00") = fromisoformatL (zSpecL s.toList) := by
    have h0 : fromisoformat (pyReplace s "Z" "+00:00") =
        fromisoformatL (pyReplaceL ['Z'] zrep s.toList) := rfl
    rw [h0, hkey]
  unfold format_timestamp formatTimestampSpec
  dsimp only
  rw [h1]
  cases hopt : fromisoformatL (zSpecL s.toList) <;> simp [hopt]

/-- C3 witness: the trailing-`Z` agreement applied at the concrete
timestamp `"2024-03-15T14:30:00Z"`. -/
theorem c3_format_timestamp_trailing_witness :
    format_timestamp (.jstr "2024-03-15T14:30:00Z") =
      .jstr (formatTimestampSpec "2024-03-15T14:30:00Z") :=
  c3_format_timestamp_trailing.1 "2024-03-15T14:30:00Z"
    (Or.inr ⟨"2024-03-15T14:30:00".toList, by decide, by decide⟩)
